import Mathlib

/-!
Verification of the asset-pipeline orchestrator and segment-to-clip windowing
algorithm of the BIRU_BHAI repository, as a shallow embedding in Lean 4.

Times, scores and durations are modelled as rationals (the source uses Python
floats; all constants and test values are exactly representable). Python's
`round(x, n)` rounds half to even; `rhe` below implements that tie rule on ℚ.
-/
namespace BiruBhai

/-! ### Definitions: the shallow embedding of the source -/

/-- Round half to even on rationals (the tie-breaking rule of Python's `round`). -/
def rhe (x : ℚ) : ℤ :=
  if Int.fract x < 1/2 then ⌊x⌋
  else if 1/2 < Int.fract x then ⌊x⌋ + 1
  else if ⌊x⌋ % 2 = 0 then ⌊x⌋ else ⌊x⌋ + 1

/-- Model of `round(x, 2)` of the source, on ℚ. -/
def round2 (x : ℚ) : ℚ := (rhe (100 * x) : ℚ) / 100

/-- Model of `round(x, 3)` of the source, on ℚ. -/
def round3 (x : ℚ) : ℚ := (rhe (1000 * x) : ℚ) / 1000

/-! Constants of `src/agents/viral_cutter.py`. -/
def MAX_CLIPS_PER_ASSET : ℕ := 25

def MIN_CLIP_DURATION : ℚ := 5

def MAX_CLIP_DURATION : ℚ := 60

def MERGE_GAP : ℚ := 3

/-- A transcribed segment with derived scores (`Segment` of
`src/agents/understanding.py`). `end` is a Lean keyword, hence the guillemets. -/
structure Segment where
  start : ℚ
  «end» : ℚ
  text : String
  avg_logprob : ℚ := 0
  no_speech_prob : ℚ := 0
  hook_score : ℚ := 0
  energy_score : ℚ := 0
deriving DecidableEq

/-! Keyword scoring of `src/agents/understanding.py`. Python's substring test
`kw in text_lower` and `len(text.split())` are modelled on the character list
of the string (ASCII lower-casing, which covers every keyword). -/
def HOOK_KEYWORDS : List String :=
  ["bhai", "yaar", "dekh", "sun", "sach", "asli", "real",
   "dil", "pyaar", "dard", "rula", "hasa", "mast", "jhakas",
   "viral", "trending", "hit", "super", "best", "top",
   "chal", "kar", "bol", "bata", "sikha"]

def startsWithChars : List Char → List Char → Bool
  | [], _ => true
  | _ :: _, [] => false
  | a :: as, b :: bs => a == b && startsWithChars as bs

/-- Python's substring containment `needle in hay`. -/
def containsChars (needle : List Char) : List Char → Bool
  | [] => startsWithChars needle []
  | l@(_ :: rest) => startsWithChars needle l || containsChars needle rest

/-- Number of maximal whitespace-free runs: `len(text.split())`. -/
def countWordsAux : Bool → List Char → ℕ
  | _, [] => 0
  | inWord, c :: rest =>
    if c.isWhitespace then countWordsAux false rest
    else (if inWord then 0 else 1) + countWordsAux true rest

def wordCount (s : String) : ℕ := countWordsAux false s.data

/-- Model of `_score_segment_hook` of `src/agents/understanding.py`. -/
def score_segment_hook (segment : Segment) : ℚ :=
  let text_lower := segment.text.data.map Char.toLower
  let keyword_hits := (HOOK_KEYWORDS.filter fun kw => containsChars kw.data text_lower).length
  let score : ℚ := min ((keyword_hits : ℚ) * 0.1) 0.4
  let duration := segment.«end» - segment.start
  let score := score +
    (if 2 ≤ duration ∧ duration ≤ 8 then 0.3
     else if duration ≤ 15 then 0.15 else 0)
  let score := if segment.avg_logprob < -1 then score * 0.5 else score
  let score := score + (if segment.start ≤ 30 then 0.1 else 0)
  min score 1

/-- Model of `_score_segment_energy` of `src/agents/understanding.py`. -/
def score_segment_energy (segment : Segment) : ℚ :=
  let duration := segment.«end» - segment.start
  if duration ≤ 0 then 0
  else
    let words_per_second := (wordCount segment.text : ℚ) / duration
    if 4 ≤ words_per_second then 0.9
    else if 3 ≤ words_per_second then 0.7
    else if 2 ≤ words_per_second then 0.5
    else if 1 ≤ words_per_second then 0.3
    else 0.1

/-- Scoring step of `transcribe` (understanding.py lines 174-175): scores are
rounded to three decimals before being stored on the segment. -/
def scoreSegment (seg : Segment) : Segment :=
  { seg with hook_score := round3 (score_segment_hook seg),
             energy_score := round3 (score_segment_energy seg) }

/-- A filtered candidate (the dicts built in build_clip_windows lines 94-99). -/
structure Candidate where
  start : ℚ
  «end» : ℚ
  text : String
  score : ℚ
deriving DecidableEq

/-- The current merge window (dicts of build_clip_windows lines 110-132). -/
structure Window where
  start : ℚ
  «end» : ℚ
  score : ℚ
  texts : List String
deriving DecidableEq

/-- The `ClipSpec` dataclass of viral_cutter.py. -/
structure ClipSpec where
  start_time : ℚ
  end_time : ℚ
  duration : ℚ
  score : ℚ
  source_segments : List String
deriving DecidableEq

/-- Constructor wrapper: `ClipSpec.__post_init__` computes `duration = round(end_time - start_time, 2)`. -/
def ClipSpec.make (start_time end_time score : ℚ) (src : List String) : ClipSpec :=
  { start_time := start_time, end_time := end_time,
    duration := round2 (end_time - start_time), score := score, source_segments := src }

def combinedScore (seg : Segment) : ℚ := seg.hook_score * 0.6 + seg.energy_score * 0.4

/-- Filtering loop of build_clip_windows (lines 83-99, object-attribute branch). -/
def candidatesOf (segments : List Segment) (min_score : ℚ) : List Candidate :=
  (segments.filter fun s => decide (min_score ≤ combinedScore s)).map fun s =>
    { start := s.start, «end» := s.«end», text := s.text, score := round3 (combinedScore s) }

/-- Stable insertion step: place `a` before the first element it should not
follow. With a total non-strict order this computes the same list as Python's
stable `list.sort`. -/
def insertBy {α : Type} (le : α → α → Bool) (a : α) : List α → List α
  | [] => [a]
  | b :: l => if le a b then a :: b :: l else b :: insertBy le a l

def sortBy {α : Type} (le : α → α → Bool) : List α → List α
  | [] => []
  | a :: l => insertBy le a (sortBy le l)

/-- The sweep-and-merge loop of build_clip_windows (lines 117-133). -/
def mergeLoop (cur : Window) : List Candidate → List Window
  | [] => [cur]
  | seg :: rest =>
    if seg.start - cur.«end» ≤ MERGE_GAP then
      mergeLoop { cur with «end» := seg.«end», score := max cur.score seg.score,
                           texts := cur.texts ++ [seg.text] } rest
    else
      cur :: mergeLoop { start := seg.start, «end» := seg.«end»,
                         score := seg.score, texts := [seg.text] } rest

/-- Merge phase of build_clip_windows (lines 108-133): initial window from the
first candidate, then the sweep loop; the final window is always closed. -/
def mergeWindows : List Candidate → List Window
  | [] => []
  | c :: rest =>
    mergeLoop { start := c.start, «end» := c.«end», score := c.score, texts := [c.text] } rest

/-- Padding and capping of one closed window (lines 137-155): pad short windows
symmetrically with the start clamped at 0, then truncate windows longer than
`MAX_CLIP_DURATION`, then round the boundaries to two decimals. -/
def toClipSpec (w : Window) : ClipSpec :=
  let duration := w.«end» - w.start
  let w1 :=
    if duration < MIN_CLIP_DURATION then
      let pad := (MIN_CLIP_DURATION - duration) / 2
      { w with start := max 0 (w.start - pad), «end» := w.«end» + pad }
    else w
  let w2 :=
    if MAX_CLIP_DURATION < w1.«end» - w1.start then
      { w1 with «end» := w1.start + MAX_CLIP_DURATION }
    else w1
  ClipSpec.make (round2 w2.start) (round2 w2.«end») w2.score w2.texts

/-- Model of `build_clip_windows` of src/agents/viral_cutter.py. -/
def build_clip_windows (segments : List Segment) (min_score : ℚ := 0.3) : List ClipSpec :=
  let candidates := candidatesOf segments min_score
  match candidates with
  | [] => []
  | _ :: _ =>
    let sorted := sortBy (fun a b => decide (a.start ≤ b.start)) candidates
    let windows := mergeWindows sorted
    let clip_specs := windows.map toClipSpec
    let ranked := sortBy (fun a b => decide (b.score ≤ a.score)) clip_specs
    ranked.take MAX_CLIPS_PER_ASSET

/-- Scenario B input: the single segment `{0, 1, "hi"}`, given scores that pass
the combined-score filter (the scenario presumes the segment survives). -/
def segB : Segment := { start := 0, «end» := 1, text := "hi", hook_score := 1, energy_score := 1 }

/-- The clip spec Scenario B actually produces. -/
def clipB : ClipSpec :=
  { start_time := 0, end_time := 3, duration := 3, score := 1, source_segments := ["hi"] }

/-- Scenario A, first segment (before scoring). -/
def segA1 : Segment := { start := 0, «end» := 5, text := "bhai dekh", avg_logprob := -0.2 }

/-- Scenario A, second segment (before scoring). -/
def segA2 : Segment := { start := 6, «end» := 10, text := "mast", avg_logprob := -0.2 }

/-- Scenario A, first segment as scored by the understanding agent. -/
def segA1s : Segment :=
  { start := 0, «end» := 5, text := "bhai dekh", avg_logprob := -0.2,
    hook_score := 0.6, energy_score := 0.1 }

/-- Scenario A, second segment as scored by the understanding agent. -/
def segA2s : Segment :=
  { start := 6, «end» := 10, text := "mast", avg_logprob := -0.2,
    hook_score := 0.5, energy_score := 0.1 }

/-! Pipeline state machine (`src/api/pipeline.py`, `src/agents/pipeline_executor.py`,
`src/api/assets.py`). The persisted `ContentAsset` row is modelled with the
fields the pipeline reads and writes; presentation-only columns (title, source
url, timestamps written by the ORM) are carried only where a claim needs them.
External collaborators (the Vizard vendor, OpenAI) are oracles passed in as
arguments: the vendor's create-project response and clip list are inputs. -/
inductive ContentStatus where
  | PENDING | DOWNLOADING | PROCESSING | READY | FAILED
deriving DecidableEq

inductive StepStatus where
  | PENDING | RUNNING | COMPLETED | FAILED | SKIPPED | POLLING
deriving DecidableEq

inductive ClipStatus where
  | PENDING | PROCESSING | READY | POSTED | FAILED
deriving DecidableEq

/-- One entry of the JSON `pipeline_data` map (only the keys the clip stage
writes; timestamps are omitted as pure wall-clock output). -/
structure StageRec where
  status : StepStatus
  message : Option String := none
  clips_count : Option ℕ := none
  project_id : Option String := none
deriving DecidableEq

/-- Replace-or-append update of the string-keyed `pipeline_data` dict. -/
def setKey (k : String) (v : StageRec) : List (String × StageRec) → List (String × StageRec)
  | [] => [(k, v)]
  | (k', v') :: rest => if k' = k then (k, v) :: rest else (k', v') :: setKey k v rest

def getKey (k : String) : List (String × StageRec) → Option StageRec
  | [] => none
  | (k', v') :: rest => if k' = k then some v' else getKey k rest

/-- The persisted `ContentAsset` row (`src/models.py` plus the pipeline
tracking columns of the alembic migration). `vizard_project_id` stands for
`meta_data["vizard_project_id"]`; `updated_at` is the ORM timestamp column,
which no core read path consults. -/
structure Asset where
  id : ℕ
  status : ContentStatus := ContentStatus.PENDING
  pipeline_step : ℕ := 0
  pipeline_step_status : StepStatus := StepStatus.PENDING
  pipeline_data : List (String × StageRec) := []
  vizard_project_id : Option String := none
  error_message : Option String := none
  updated_at : ℤ := 0
deriving DecidableEq

/-- A persisted `Clip` row (`src/models.py`). -/
structure Clip where
  asset_id : ℕ
  start_time : ℚ := 0
  end_time : ℚ := 0
  duration : ℚ := 0
  file_path : Option String := none
  status : ClipStatus := ClipStatus.PENDING
  virality_score : ℚ := 0
  transcription : Option String := none
deriving DecidableEq

/-- Database state relevant to one asset: its row and its clip rows. -/
structure World where
  asset : Asset
  clips : List Clip
deriving DecidableEq

/-- One entry of the Vizard vendor's clip list. -/
structure VClip where
  videoUrl : Option String := none
  transcript : String := ""
  duration : ℚ := 0
  viralScore : ℚ := 0
deriving DecidableEq

/-- What one call of `PipelineExecutor.execute_step` does: either return a
result dict (with the status the dict carries and an optional message), or
raise. Both carry the database state as left by the executor's own commits. -/
inductive StepOutcome where
  | ok (w : World) (status : StepStatus) (message : Option String)
  | exn (w : World) (msg : String)
deriving DecidableEq

def StepOutcome.world : StepOutcome → World
  | .ok w _ _ => w
  | .exn w _ => w

/-- The `PipelineAdvanceResponse` schema of `src/schemas.py`. -/
structure AdvanceResponse where
  asset_id : ℕ
  step_advanced_to : ℕ
  step_name : String
  status : StepStatus
  message : String
deriving DecidableEq

/-- Result of the advance endpoint: a 200 response or the HTTP 500 raised when
the executed stage raises. -/
inductive AdvanceResult where
  | ok (r : AdvanceResponse)
  | httpError (code : ℕ) (detail : String)
deriving DecidableEq

/-- The `PIPELINE_STEP_NAMES` dict of `src/enums.py` (as a partial map, callers
supply the `.get` default). -/
def PIPELINE_STEP_NAMES : ℕ → Option String
  | 0 => some "Not Started"
  | 1 => some "Fetch Metadata"
  | 2 => some "Transcribe Audio"
  | 3 => some "AI Analysis"
  | 4 => some "Generate Clips"
  | 5 => some "Caption & Post"
  | _ => none

/-- Python `status.lower()` on step-status strings. -/
def StepStatus.lower : StepStatus → String
  | .PENDING => "pending"
  | .RUNNING => "running"
  | .COMPLETED => "completed"
  | .FAILED => "failed"
  | .SKIPPED => "skipped"
  | .POLLING => "polling"

/-- The mid-call commit of `advance_pipeline` (lines 124-128): before the
step runs, the asset is persisted as step = next_step, RUNNING, PROCESSING —
so a crash mid-stage is observable. -/
def running_world (w : World) (next_step : ℕ) : World :=
  { w with asset :=
      { w.asset with pipeline_step := next_step, pipeline_step_status := .RUNNING,
                     status := .PROCESSING } }

/-- Model of `advance_pipeline` of `src/api/pipeline.py` (lines 85-161). `exec` is
`PipelineExecutor.execute_step` abstracted over its external collaborators:
it receives the step number and the database state as committed before the
step runs, and yields a `StepOutcome`. -/
def next_step_of (current : ℕ) (current_status : StepStatus) : ℕ :=
  if current_status = .COMPLETED ∨ current_status = .SKIPPED then current + 1
  else if current_status = .POLLING then current
  else if current_status = .FAILED then current
  else max current 1

def advance_pipeline (w : World) (exec : ℕ → World → StepOutcome) : World × AdvanceResult :=
  let asset := w.asset
  let current := asset.pipeline_step
  let current_status := asset.pipeline_step_status
  if 5 ≤ current ∧ current_status = StepStatus.COMPLETED then
    (w, .ok { asset_id := asset.id, step_advanced_to := 5, step_name := "Caption & Post",
              status := .COMPLETED, message := "Pipeline already complete" })
  else
    let next_step := next_step_of current current_status
    if 5 < next_step then
      ({ w with asset := { asset with status := .READY } },
       .ok { asset_id := asset.id, step_advanced_to := 5, step_name := "Caption & Post",
             status := .COMPLETED, message := "All steps complete" })
    else
      let w1 : World := running_world w next_step
      match exec next_step w1 with
      | .ok w2 st msg =>
        let st' := if next_step = 5 ∧ st = .COMPLETED then ContentStatus.READY
                   else w2.asset.status
        let a3 := { w2.asset with pipeline_step := next_step, pipeline_step_status := st,
                                  status := st' }
        ({ w2 with asset := a3 },
         .ok { asset_id := asset.id, step_advanced_to := next_step,
               step_name := (PIPELINE_STEP_NAMES next_step).getD "Unknown",
               status := st,
               message := msg.getD ("Step " ++ toString next_step ++ " " ++ st.lower) })
      | .exn w2 m =>
        let a3 := { w2.asset with pipeline_step := next_step, pipeline_step_status := .FAILED,
                                  status := ContentStatus.FAILED, error_message := some m }
        ({ w2 with asset := a3 }, .httpError 500 m)

/-- Message of the exception `VizardAgent.create_project` raises when the API
key setting is empty (`src/agents/vizard_agent.py` lines 22-23). -/
def VIZARD_MISSING_KEY_MSG : String := "Vizard API Key missing in environment variables."

/-- Does a clip row with this asset id and file path already exist
(the duplicate check `db.query(Clip).filter(...)` of `_step_clip`)? -/
def clipExists (clips : List Clip) (aid : ℕ) (url : String) : Bool :=
  clips.any fun c => c.asset_id == aid && c.file_path == some url

/-- The `Clip(...)` row `_step_clip` constructs for one vendor entry. -/
def vendorClip (aid : ℕ) (v : VClip) (url : String) : Clip :=
  { asset_id := aid, start_time := 0, end_time := 0, duration := v.duration,
    file_path := some url, status := .READY, virality_score := v.viralScore }

/-- The clip-creation loop of `_step_clip` (pipeline_executor.py lines
269-289): walk the first 15 vendor entries, skip entries without a
`videoUrl`, skip urls already present (the session's autoflush makes clips
added earlier in the same loop visible to the query), append the rest.
Returns the clip table and the number created. -/
def addVendorClips (aid : ℕ) : List VClip → List Clip → List Clip × ℕ
  | [], clips => (clips, 0)
  | v :: rest, clips =>
    match v.videoUrl with
    | none => addVendorClips aid rest clips
    | some url =>
      if clipExists clips aid url then addVendorClips aid rest clips
      else
        let r := addVendorClips aid rest (clips ++ [vendorClip aid v url])
        (r.1, r.2 + 1)

/-- Polling half of `_step_clip` (lines 252-299), entered once a Vizard
project id exists: an empty vendor list persists POLLING on
`pipeline_data["step_4_clip"]`; a non-empty list creates clip rows and
persists COMPLETED with the created count. -/
def step_clip_poll (pid : String) (clipsData : List VClip) (w : World) : StepOutcome :=
  match clipsData with
  | [] =>
    let rec4 : StageRec :=
      { status := .POLLING, message := some "Vizard is still processing clips...",
        project_id := some pid }
    let a := { w.asset with pipeline_data := setKey "step_4_clip" rec4 w.asset.pipeline_data }
    .ok { w with asset := a } .POLLING (some "Vizard is processing. Check back later.")
  | _ :: _ =>
    let r := addVendorClips w.asset.id (clipsData.take 15) w.clips
    let rec4 : StageRec := { status := .COMPLETED, clips_count := some r.2 }
    let a := { w.asset with pipeline_data := setKey "step_4_clip" rec4 w.asset.pipeline_data }
    .ok { w with asset := a, clips := r.1 } .COMPLETED none

/-- Model of `PipelineExecutor._step_clip` (lines 226-299). `api_key` is
`settings.vizard_api_key`; `createResp` is the vendor's create-project answer
(`Except.error` for any of the agent's raises after the key check);
`clipsData` is the vendor's clip list (`get_clips` catches its own errors and
returns `[]`, so it never raises). With an empty key the agent raises before
any commit, and `advance_pipeline` turns that into a FAILED stage. -/
def step_clip (api_key : String) (createResp : Except String String)
    (clipsData : List VClip) (w : World) : StepOutcome :=
  match w.asset.vizard_project_id with
  | some pid => step_clip_poll pid clipsData w
  | none =>
    if api_key = "" then .exn w VIZARD_MISSING_KEY_MSG
    else
      match createResp with
      | .error e => .exn w e
      | .ok pid =>
        if pid = "" then .exn w "Vizard project creation returned no project ID"
        else
          let w' : World := { w with asset := { w.asset with vizard_project_id := some pid } }
          step_clip_poll pid clipsData w'

/-- Result of the asset status read. `ClipStatus` is not imported in
`src/api/assets.py`, so the branch that would construct a new `Clip` row in
the lazy-polling loop raises `NameError` (HTTP 500) before anything is
committed; the session is closed without commit, so the database is
unchanged. -/
inductive GetAssetResult where
  | ok (w : World) (statusShown : ContentStatus)
  | nameError (msg : String)
deriving DecidableEq

/-- Does the lazy-polling loop of `get_asset` run to completion? It does
exactly when every entry of the first 15 either lacks a `videoUrl` or is
already present as a clip row; the first genuinely new url reaches the
`Clip(... status=ClipStatus.READY ...)` expression and raises `NameError`. -/
def lazyPollOk (aid : ℕ) (clips : List Clip) : List VClip → Bool
  | [] => true
  | v :: rest =>
    match v.videoUrl with
    | none => lazyPollOk aid clips rest
    | some url => if clipExists clips aid url then lazyPollOk aid clips rest else false

/-- Model of `get_asset` of `src/api/assets.py` (lines 123-178). `clipsData` is what
`VizardAgent.get_clips` returns for the stored project id. The read performs
no staleness or timeout check of any kind: it mutates the asset only by
setting the status to READY when lazy polling finds vendor clips. -/
def get_asset (w : World) (clipsData : List VClip) : GetAssetResult :=
  if w.asset.status = ContentStatus.PROCESSING ∧ w.asset.vizard_project_id.isSome ∧
      clipsData ≠ [] then
    if lazyPollOk w.asset.id w.clips (clipsData.take 15) then
      .ok { w with asset := { w.asset with status := ContentStatus.READY } } ContentStatus.READY
    else
      .nameError "name 'ClipStatus' is not defined"
  else
    .ok w w.asset.status

/-- Displayed status of one step in `_build_steps` (pipeline.py lines 14-63):
the recorded status, overridden to RUNNING for the current running step and to
PENDING for steps beyond the current one. -/
def step_key : ℕ → String
  | 1 => "step_1_fetch"
  | 2 => "step_2_transcribe"
  | 3 => "step_3_analyze"
  | 4 => "step_4_clip"
  | 5 => "step_5_caption_post"
  | _ => ""

def displayedStatus (a : Asset) (num : ℕ) : StepStatus :=
  let recorded := ((getKey (step_key num) a.pipeline_data).map StageRec.status).getD .PENDING
  if num = a.pipeline_step ∧ a.pipeline_step_status = .RUNNING then .RUNNING
  else if a.pipeline_step < num then .PENDING
  else recorded

/-- The `PipelineStatusResponse` schema (statuses of the five steps; result summaries are
display strings and are omitted). -/
structure PipelineStatusResponse where
  asset_id : ℕ
  overall_status : ContentStatus
  current_step : ℕ
  current_step_name : String
  steps : List StepStatus
  error_message : Option String
deriving DecidableEq

/-- Model of `get_pipeline_status` of `src/api/pipeline.py` (lines 66-82). The handler
only queries and projects the row — it contains no assignment and no commit —
so the returned database state is the input state, whatever the asset's
`updated_at` age. -/
def get_pipeline_status (w : World) : World × PipelineStatusResponse :=
  (w, { asset_id := w.asset.id,
        overall_status := w.asset.status,
        current_step := w.asset.pipeline_step,
        current_step_name := (PIPELINE_STEP_NAMES w.asset.pipeline_step).getD "Not Started",
        steps := (List.range 5).map fun i => displayedStatus w.asset (i + 1),
        error_message := w.asset.error_message })

/-- A terminal asset: stage 5 completed, overall READY. -/
def worldT : World :=
  { asset := { id := 1, status := .READY, pipeline_step := 5,
               pipeline_step_status := .COMPLETED }, clips := [] }

/-- An executor stub that succeeds without touching the database. -/
def execNoop : ℕ → World → StepOutcome := fun _ w => .ok w .COMPLETED none

/-- The POLLING stage record `_step_clip` persists while the vendor list is
empty. -/
def pollingRec (pid : String) : StageRec :=
  { status := .POLLING, message := some "Vizard is still processing clips...",
    project_id := some pid }

/-- An asset parked at step 4 POLLING with a stored vendor project id. -/
def worldPoll : World :=
  { asset := { id := 3, status := .PROCESSING, pipeline_step := 4,
               pipeline_step_status := .POLLING, vizard_project_id := some "proj-1",
               pipeline_data := [("step_4_clip", pollingRec "proj-1")] }, clips := [] }

/-- An asset about to run the clip stage, with no stored vendor project id. -/
def worldNoViz : World :=
  { asset := { id := 2, status := .PROCESSING, pipeline_step := 3,
               pipeline_step_status := .COMPLETED }, clips := [] }

/-- A fresh PROCESSING asset at stage 4/COMPLETED (used to witness the
amended C6 through the caption stage). -/
def worldStep4 : World :=
  { asset := { id := 4, status := .PROCESSING, pipeline_step := 4,
               pipeline_step_status := .COMPLETED }, clips := [] }

/-- Start state for the C6 counterexample: stage 3 analysis done, vendor
project already created. -/
def c6Start : World :=
  { asset := { id := 3, status := .PROCESSING, pipeline_step := 3,
               pipeline_step_status := .COMPLETED, vizard_project_id := some "proj-1" },
    clips := [] }

/-- After one advance whose clip stage polls an empty vendor list. -/
def c6Mid : World :=
  (advance_pipeline c6Start (fun _ w' => step_clip "k" (Except.ok "proj-1") [] w')).1

/-- What the lazy-polling read turns `c6Mid` into. -/
def c6Final : World := { c6Mid with asset := { c6Mid.asset with status := ContentStatus.READY } }

/-- A PROCESSING asset at stage 2/RUNNING whose `updated_at` is arbitrarily
old relative to any read time (the read never consults it). -/
def staleAsset : Asset :=
  { id := 7, status := .PROCESSING, pipeline_step := 2,
    pipeline_step_status := .RUNNING, updated_at := 0 }

def staleWorld : World := { asset := staleAsset, clips := [] }

/-! ### Theorems -/

theorem le_rhe (x : ℚ) : x - 1/2 ≤ (rhe x : ℚ) := by
  unfold rhe
  have hfr : Int.fract x = x - ⌊x⌋ := rfl
  have hlt := Int.fract_lt_one x
  rw [hfr] at hlt
  split_ifs with h1 h2 h3
  · rw [hfr] at h1; linarith
  · push_cast; rw [hfr] at h2; linarith
  · have h : Int.fract x = 1/2 := le_antisymm (not_lt.mp h2) (not_lt.mp h1)
    rw [hfr] at h; linarith
  · have h : Int.fract x = 1/2 := le_antisymm (not_lt.mp h2) (not_lt.mp h1)
    rw [hfr] at h; push_cast; linarith

theorem rhe_le (x : ℚ) : (rhe x : ℚ) ≤ x + 1/2 := by
  unfold rhe
  have hfr : Int.fract x = x - ⌊x⌋ := rfl
  have hlt := Int.fract_lt_one x
  rw [hfr] at hlt
  split_ifs with h1 h2 h3
  · have := Int.floor_le x; linarith
  · push_cast; linarith
  · have := Int.floor_le x; linarith
  · have h : Int.fract x = 1/2 := le_antisymm (not_lt.mp h2) (not_lt.mp h1)
    rw [hfr] at h; push_cast; linarith

theorem rhe_eq_add_half {x : ℚ} (h : (rhe x : ℚ) = x + 1/2) :
    Int.fract x = 1/2 ∧ ⌊x⌋ % 2 ≠ 0 := by
  have hfr : Int.fract x = x - ⌊x⌋ := rfl
  have h0 := Int.fract_nonneg x
  have hlt := Int.fract_lt_one x
  unfold rhe at h
  split_ifs at h with h1 h2 h3
  · exfalso; rw [hfr] at h0; linarith
  · exfalso; push_cast at h; rw [hfr] at h2; linarith
  · exfalso
    have hh : Int.fract x = 1/2 := le_antisymm (not_lt.mp h2) (not_lt.mp h1)
    rw [hfr] at hh; linarith
  · exact ⟨le_antisymm (not_lt.mp h2) (not_lt.mp h1), h3⟩

theorem rhe_eq_sub_half {x : ℚ} (h : (rhe x : ℚ) = x - 1/2) :
    Int.fract x = 1/2 ∧ ⌊x⌋ % 2 = 0 := by
  have hfr : Int.fract x = x - ⌊x⌋ := rfl
  have hlt := Int.fract_lt_one x
  unfold rhe at h
  split_ifs at h with h1 h2 h3
  · exfalso; rw [hfr] at h1; linarith
  · exfalso; push_cast at h; rw [hfr] at hlt; linarith
  · exact ⟨le_antisymm (not_lt.mp h2) (not_lt.mp h1), h3⟩
  · exfalso; push_cast at h; rw [hfr] at hlt; linarith

theorem rhe_sub_le {x y : ℚ} {n : ℤ} (hn : n % 2 = 0) (h : y - x ≤ (n : ℚ)) :
    rhe y - rhe x ≤ n := by
  by_contra hlt
  push_neg at hlt
  have hub := rhe_le y
  have hlb := le_rhe x
  have hle : rhe y - rhe x ≤ n + 1 := by
    have hq : ((rhe y - rhe x : ℤ) : ℚ) ≤ ((n + 1 : ℤ) : ℚ) := by push_cast; linarith
    exact_mod_cast hq
  have heq : rhe y - rhe x = n + 1 := le_antisymm hle (by omega)
  have hq : ((rhe y : ℤ) : ℚ) - ((rhe x : ℤ) : ℚ) = (n : ℚ) + 1 := by
    have := congrArg (fun m : ℤ => (m : ℚ)) heq
    push_cast at this; linarith
  have hy : (rhe y : ℚ) = y + 1/2 := le_antisymm hub (by linarith)
  have hx : (rhe x : ℚ) = x - 1/2 := le_antisymm (by linarith) (le_rhe x)
  obtain ⟨hfy, hoy⟩ := rhe_eq_add_half hy
  obtain ⟨hfx, hex⟩ := rhe_eq_sub_half hx
  have hyx : y - x = (n : ℚ) := by linarith
  have hfry : Int.fract y = y - ⌊y⌋ := rfl
  have hfrx : Int.fract x = x - ⌊x⌋ := rfl
  have hfl : ((⌊y⌋ - ⌊x⌋ : ℤ) : ℚ) = (n : ℚ) := by
    rw [hfry] at hfy; rw [hfrx] at hfx; push_cast; linarith
  have hfloor : ⌊y⌋ - ⌊x⌋ = n := by exact_mod_cast hfl
  omega

theorem rhe_sub_ge {x y : ℚ} {n : ℤ} (hn : n % 2 = 0) (h : (n : ℚ) ≤ y - x) :
    n ≤ rhe y - rhe x := by
  have hneg : (-n : ℤ) % 2 = 0 := by omega
  have h2 : x - y ≤ ((-n : ℤ) : ℚ) := by push_cast; linarith
  have := rhe_sub_le hneg h2
  omega

theorem round2_sub_le {x y : ℚ} {n : ℤ} (h : y - x ≤ (n : ℚ)) :
    round2 y - round2 x ≤ (n : ℚ) := by
  have h100 : 100 * y - 100 * x ≤ ((100 * n : ℤ) : ℚ) := by push_cast; linarith
  have hr := rhe_sub_le (x := 100 * x) (y := 100 * y) (n := 100 * n) (by omega) h100
  have hq : ((rhe (100 * y) : ℤ) : ℚ) - ((rhe (100 * x) : ℤ) : ℚ) ≤ ((100 * n : ℤ) : ℚ) := by
    have : ((rhe (100 * y) - rhe (100 * x) : ℤ) : ℚ) ≤ ((100 * n : ℤ) : ℚ) := by exact_mod_cast hr
    push_cast at this ⊢; linarith
  unfold round2
  push_cast at hq
  linarith

theorem round2_sub_ge {x y : ℚ} {n : ℤ} (h : (n : ℚ) ≤ y - x) :
    (n : ℚ) ≤ round2 y - round2 x := by
  have h100 : ((100 * n : ℤ) : ℚ) ≤ 100 * y - 100 * x := by push_cast; linarith
  have hr := rhe_sub_ge (x := 100 * x) (y := 100 * y) (n := 100 * n) (by omega) h100
  have hq : ((100 * n : ℤ) : ℚ) ≤ ((rhe (100 * y) : ℤ) : ℚ) - ((rhe (100 * x) : ℤ) : ℚ) := by
    have : ((100 * n : ℤ) : ℚ) ≤ ((rhe (100 * y) - rhe (100 * x) : ℤ) : ℚ) := by exact_mod_cast hr
    push_cast at this ⊢; linarith
  unfold round2
  push_cast at hq
  linarith

theorem rhe_intCast (m : ℤ) : rhe (m : ℚ) = m := by
  unfold rhe
  rw [Int.fract_intCast, Int.floor_intCast]
  norm_num

theorem round2_eq_self {x : ℚ} (m : ℤ) (h : 100 * x = (m : ℚ)) : round2 x = x := by
  unfold round2
  rw [h, rhe_intCast]
  field_simp
  linarith

theorem round2_sub_round2 (x y : ℚ) :
    round2 (round2 y - round2 x) = round2 y - round2 x := by
  apply round2_eq_self (rhe (100 * y) - rhe (100 * x))
  unfold round2
  push_cast
  field_simp

/-! Helper lemmas about the windowing pipeline. -/
theorem round2_zero : round2 0 = 0 := round2_eq_self 0 (by norm_num)

theorem mem_insertBy {α : Type} (le : α → α → Bool) (a b : α) (l : List α) :
    a ∈ insertBy le b l ↔ a = b ∨ a ∈ l := by
  induction l with
  | nil => simp [insertBy]
  | cons c l ih =>
    simp only [insertBy]
    split_ifs
    · simp [List.mem_cons]
    · simp only [List.mem_cons, ih]
      tauto

theorem mem_sortBy {α : Type} (le : α → α → Bool) (a : α) (l : List α) :
    a ∈ sortBy le l ↔ a ∈ l := by
  induction l with
  | nil => simp [sortBy]
  | cons b l ih => simp [sortBy, mem_insertBy, ih]

theorem length_insertBy {α : Type} (le : α → α → Bool) (b : α) (l : List α) :
    (insertBy le b l).length = l.length + 1 := by
  induction l with
  | nil => simp [insertBy]
  | cons c l ih =>
    simp only [insertBy]
    split_ifs <;> simp [ih]

theorem length_sortBy {α : Type} (le : α → α → Bool) (l : List α) :
    (sortBy le l).length = l.length := by
  induction l with
  | nil => rfl
  | cons b l ih => simp [sortBy, length_insertBy, ih]

/-- Every produced clip spec is at most `MAX_CLIP_DURATION` long: the cap
truncates anything longer, and two-decimal rounding of both ends cannot move a
difference of at most 60 above 60. -/
theorem toClipSpec_duration_le (w : Window) :
    (toClipSpec w).duration ≤ MAX_CLIP_DURATION := by
  unfold toClipSpec
  simp only [MIN_CLIP_DURATION, MAX_CLIP_DURATION] at *
  split_ifs with h1 h2 h3
  · simp only [ClipSpec.make]
    rw [round2_sub_round2]
    have hb : (0 ⊔ (w.start - (5 - (w.«end» - w.start)) / 2) + 60) -
        (0 ⊔ (w.start - (5 - (w.«end» - w.start)) / 2)) ≤ ((60 : ℤ) : ℚ) := by
      push_cast; linarith
    have := round2_sub_le hb; push_cast at this; linarith
  · dsimp only at h2
    simp only [ClipSpec.make]
    rw [round2_sub_round2]
    push_neg at h2
    have hb : (w.«end» + (5 - (w.«end» - w.start)) / 2) -
        (0 ⊔ (w.start - (5 - (w.«end» - w.start)) / 2)) ≤ ((60 : ℤ) : ℚ) := by
      push_cast; linarith
    have := round2_sub_le hb; push_cast at this; linarith
  · simp only [ClipSpec.make]
    rw [round2_sub_round2]
    have hb : (w.start + 60) - w.start ≤ ((60 : ℤ) : ℚ) := by push_cast; linarith
    have := round2_sub_le hb; push_cast at this; linarith
  · simp only [ClipSpec.make]
    rw [round2_sub_round2]
    push_neg at h3
    have hb : w.«end» - w.start ≤ ((60 : ℤ) : ℚ) := by push_cast; linarith
    have := round2_sub_le hb; push_cast at this; linarith

/-- Every produced clip spec either reaches `MIN_CLIP_DURATION` or had its
start clamped to 0 by the padding step (in which case the shortfall is not
redistributed and the minimum can be missed). -/
theorem toClipSpec_min_or_zero (w : Window) :
    MIN_CLIP_DURATION ≤ (toClipSpec w).duration ∨ (toClipSpec w).start_time = 0 := by
  unfold toClipSpec
  simp only [MIN_CLIP_DURATION, MAX_CLIP_DURATION] at *
  split_ifs with h1 h2 h3
  · -- padded then capped: duration is exactly 60
    left
    simp only [ClipSpec.make]
    rw [round2_sub_round2]
    have hb : ((5 : ℤ) : ℚ) ≤ (max 0 (w.start - (5 - (w.«end» - w.start)) / 2) + 60) -
        max 0 (w.start - (5 - (w.«end» - w.start)) / 2) := by push_cast; linarith
    have := round2_sub_ge hb; push_cast at this; linarith
  · -- padded, not capped
    by_cases hcl : w.start - (5 - (w.«end» - w.start)) / 2 < 0
    · right
      simp only [ClipSpec.make]
      have hmax : max 0 (w.start - (5 - (w.«end» - w.start)) / 2) = 0 :=
        max_eq_left (le_of_lt hcl)
      rw [hmax, round2_zero]
    · left
      simp only [ClipSpec.make]
      rw [round2_sub_round2]
      push_neg at hcl
      have hmax : max 0 (w.start - (5 - (w.«end» - w.start)) / 2) =
          w.start - (5 - (w.«end» - w.start)) / 2 := max_eq_right hcl
      rw [hmax]
      have hb : ((5 : ℤ) : ℚ) ≤ (w.«end» + (5 - (w.«end» - w.start)) / 2) -
          (w.start - (5 - (w.«end» - w.start)) / 2) := by push_cast; ring_nf; linarith
      have := round2_sub_ge hb; push_cast at this; linarith
  · -- not padded, capped: duration is exactly 60 ≥ 5
    left
    simp only [ClipSpec.make]
    rw [round2_sub_round2]
    have hb : ((5 : ℤ) : ℚ) ≤ (w.start + 60) - w.start := by push_cast; linarith
    have := round2_sub_ge hb; push_cast at this; linarith
  · -- neither: duration was already at least 5
    left
    simp only [ClipSpec.make]
    rw [round2_sub_round2]
    push_neg at h1
    have hb : ((5 : ℤ) : ℚ) ≤ w.«end» - w.start := by push_cast; linarith
    have := round2_sub_ge hb; push_cast at this; linarith

/-- What `build_clip_windows` actually returns on Scenario B: the padded window
is `[0, 3]` with duration 3, because the symmetric pad of 2s is clamped at
start 0 and the clamped-away 2s are not added to the end. -/
theorem build_segB_eq :
    build_clip_windows [segB] 0.3 =
      [{ start_time := 0, end_time := 3, duration := 3, score := 1, source_segments := ["hi"] }] := by
  have h3 : round3 (1 : ℚ) = 1 := by norm_num [round3, rhe, Int.fract]
  have h0 : round2 (0 : ℚ) = 0 := round2_zero
  have hb : round2 (3 : ℚ) = 3 := round2_eq_self 300 (by norm_num)
  norm_num [build_clip_windows, candidatesOf, combinedScore, segB, mergeWindows, mergeLoop,
    toClipSpec, ClipSpec.make, sortBy, insertBy, h3, h0, hb,
    MIN_CLIP_DURATION, MAX_CLIP_DURATION, MERGE_GAP, MAX_CLIPS_PER_ASSET]

/-- C1: the claim that every output window has duration between
MIN_CLIP_DURATION and MAX_CLIP_DURATION, and that segment {0,1} pads to
end 5, is false: on the single surviving segment {0,1,"hi"} the builder
returns one window with start 0, end 3 and duration 3 < MIN_CLIP_DURATION
(the clamped padding shortfall is not redistributed to the end). -/
theorem c1_counterexample :
    build_clip_windows [segB] 0.3 =
      [{ start_time := 0, end_time := 3, duration := 3, score := 1, source_segments := ["hi"] }] ∧
    (3 : ℚ) < MIN_CLIP_DURATION ∧
    ¬ ((build_clip_windows [segB] 0.3).map ClipSpec.end_time = [5]) := by
  refine ⟨build_segB_eq, by norm_num [MIN_CLIP_DURATION], ?_⟩
  rw [build_segB_eq]
  simp only [List.map_cons, List.map_nil]
  intro h
  have := List.head_eq_of_cons_eq h
  norm_num at this

/-- C1 (amended): for every input list and threshold the builder returns at
most MAX_CLIPS_PER_ASSET windows, every window's duration is at most
MAX_CLIP_DURATION, and every window either reaches MIN_CLIP_DURATION or has
its start clamped to 0 (in which case the duration may fall short of the
minimum). -/
theorem c1_windowing_bounds (segments : List Segment) (min_score : ℚ) :
    (build_clip_windows segments min_score).length ≤ MAX_CLIPS_PER_ASSET ∧
    ∀ c ∈ build_clip_windows segments min_score,
      c.duration ≤ MAX_CLIP_DURATION ∧
      (MIN_CLIP_DURATION ≤ c.duration ∨ c.start_time = 0) := by
  unfold build_clip_windows
  cases hc : candidatesOf segments min_score with
  | nil => simp
  | cons c0 cs =>
    refine ⟨List.length_take_le _ _, ?_⟩
    intro c hcmem
    have h1 := List.mem_of_mem_take hcmem
    rw [mem_sortBy] at h1
    obtain ⟨w, _, rfl⟩ := List.mem_map.mp h1
    exact ⟨toClipSpec_duration_le w, toClipSpec_min_or_zero w⟩

/-- Witness for the amended C1 at the Scenario B input. -/
theorem c1_windowing_bounds_witness :
    clipB.duration ≤ MAX_CLIP_DURATION ∧
    (MIN_CLIP_DURATION ≤ clipB.duration ∨ clipB.start_time = 0) :=
  (c1_windowing_bounds [segB] 0.3).2 clipB
    (by rw [build_segB_eq]; exact List.mem_singleton.mpr rfl)

/-- C9: for every segment — any duration (zero or negative included), any
text, any confidence, any start time — both scorer components are within
[0, 1]; on ℚ the functions are total, so no exception can arise. -/
theorem c9_scorer_range (seg : Segment) :
    0 ≤ score_segment_hook seg ∧ score_segment_hook seg ≤ 1 ∧
    0 ≤ score_segment_energy seg ∧ score_segment_energy seg ≤ 1 := by
  refine ⟨?_, ?_, ?_, ?_⟩
  · simp only [score_segment_hook]
    have h1 : (0 : ℚ) ≤ min (((HOOK_KEYWORDS.filter fun kw =>
        containsChars kw.data (seg.text.data.map Char.toLower)).length : ℚ) * 0.1) 0.4 :=
      le_min (by positivity) (by norm_num)
    refine le_min ?_ (by norm_num)
    split_ifs <;> linarith
  · exact min_le_right _ _
  · simp only [score_segment_energy]
    split_ifs <;> norm_num
  · simp only [score_segment_energy]
    split_ifs <;> norm_num

/-! C5: merge correctness, with Scenario A. -/
theorem candidatesOf_pair (s1 s2 : Segment) (t : ℚ)
    (h1 : t ≤ combinedScore s1) (h2 : t ≤ combinedScore s2) :
    candidatesOf [s1, s2] t =
      [{ start := s1.start, «end» := s1.«end», text := s1.text,
         score := round3 (combinedScore s1) },
       { start := s2.start, «end» := s2.«end», text := s2.text,
         score := round3 (combinedScore s2) }] := by
  simp [candidatesOf, h1, h2]

theorem sortBy_pair (c1 c2 : Candidate) (h : c1.start ≤ c2.start) :
    sortBy (fun a b => decide (a.start ≤ b.start)) [c1, c2] = [c1, c2] := by
  simp [sortBy, insertBy, h]

theorem mergeWindows_pair_close (c1 c2 : Candidate) (h : c2.start - c1.«end» ≤ MERGE_GAP) :
    mergeWindows [c1, c2] =
      [{ start := c1.start, «end» := c2.«end», score := max c1.score c2.score,
         texts := [c1.text, c2.text] }] := by
  simp [mergeWindows, mergeLoop, h]

theorem mergeWindows_pair_far (c1 c2 : Candidate) (h : MERGE_GAP < c2.start - c1.«end») :
    mergeWindows [c1, c2] =
      [{ start := c1.start, «end» := c1.«end», score := c1.score, texts := [c1.text] },
       { start := c2.start, «end» := c2.«end», score := c2.score, texts := [c2.text] }] := by
  simp [mergeWindows, mergeLoop, not_le.mpr h]

theorem scoreSegment_segA1 : scoreSegment segA1 = segA1s := by
  have hh : score_segment_hook segA1 = 0.6 := by
    simp only [score_segment_hook, segA1]
    rw [show (HOOK_KEYWORDS.filter fun kw =>
        containsChars kw.data (List.map Char.toLower (String.data "bhai dekh"))).length = 2
      from by decide]
    norm_num [min_def]
  have he : score_segment_energy segA1 = 0.1 := by
    simp only [score_segment_energy, segA1]
    simp only [show wordCount "bhai dekh" = 2 from by decide]
    norm_num
  have hr6 : round3 ((3 : ℚ) / 5) = 3 / 5 := by norm_num [round3, rhe, Int.fract]
  have hr1 : round3 ((1 : ℚ) / 10) = 1 / 10 := by norm_num [round3, rhe, Int.fract]
  simp only [scoreSegment, hh, he]
  norm_num [segA1, segA1s, hr6, hr1]

theorem scoreSegment_segA2 : scoreSegment segA2 = segA2s := by
  have hh : score_segment_hook segA2 = 0.5 := by
    simp only [score_segment_hook, segA2]
    rw [show (HOOK_KEYWORDS.filter fun kw =>
        containsChars kw.data (List.map Char.toLower (String.data "mast"))).length = 1
      from by decide]
    norm_num [min_def]
  have he : score_segment_energy segA2 = 0.1 := by
    simp only [score_segment_energy, segA2]
    simp only [show wordCount "mast" = 1 from by decide]
    norm_num
  have hr5 : round3 ((1 : ℚ) / 2) = 1 / 2 := by norm_num [round3, rhe, Int.fract]
  have hr1 : round3 ((1 : ℚ) / 10) = 1 / 10 := by norm_num [round3, rhe, Int.fract]
  simp only [scoreSegment, hh, he]
  norm_num [segA2, segA2s, hr5, hr1]

/-- C5: two segments that both pass the combined-score filter merge into a
single window spanning from the first start to the second end with the larger
score when the gap is at most MERGE_GAP, and stay two windows when the gap
exceeds it; in particular Scenario A's segments {0,5,"bhai dekh"} and
{6,10,"mast"} (gap 1s after scoring) produce the single window [0, 10]. -/
theorem c5_merge_correctness :
    (∀ (s1 s2 : Segment) (t : ℚ), t ≤ combinedScore s1 → t ≤ combinedScore s2 →
      s1.start ≤ s2.start →
      (s2.start - s1.«end» ≤ MERGE_GAP →
        mergeWindows (sortBy (fun a b => decide (a.start ≤ b.start)) (candidatesOf [s1, s2] t)) =
          [{ start := s1.start, «end» := s2.«end»,
             score := max (round3 (combinedScore s1)) (round3 (combinedScore s2)),
             texts := [s1.text, s2.text] }] ∧
        (build_clip_windows [s1, s2] t).length = 1) ∧
      (MERGE_GAP < s2.start - s1.«end» →
        mergeWindows (sortBy (fun a b => decide (a.start ≤ b.start)) (candidatesOf [s1, s2] t)) =
          [{ start := s1.start, «end» := s1.«end», score := round3 (combinedScore s1),
             texts := [s1.text] },
           { start := s2.start, «end» := s2.«end», score := round3 (combinedScore s2),
             texts := [s2.text] }] ∧
        (build_clip_windows [s1, s2] t).length = 2)) ∧
    build_clip_windows [scoreSegment segA1, scoreSegment segA2] 0.3 =
      [{ start_time := 0, end_time := 10, duration := 10, score := 0.4,
         source_segments := ["bhai dekh", "mast"] }] := by
  constructor
  · intro s1 s2 t h1 h2 hord
    have hc := candidatesOf_pair s1 s2 t h1 h2
    have hsorted : sortBy (fun a b => decide (a.start ≤ b.start)) (candidatesOf [s1, s2] t) =
        candidatesOf [s1, s2] t := by
      rw [hc]; exact sortBy_pair _ _ hord
    constructor
    · intro hgap
      have hm := mergeWindows_pair_close
        { start := s1.start, «end» := s1.«end», text := s1.text,
          score := round3 (combinedScore s1) }
        { start := s2.start, «end» := s2.«end», text := s2.text,
          score := round3 (combinedScore s2) } hgap
      constructor
      · rw [hsorted, hc, hm]
      · simp only [build_clip_windows, hc]
        rw [show sortBy (fun a b : Candidate => decide (a.start ≤ b.start))
              [{ start := s1.start, «end» := s1.«end», text := s1.text,
                 score := round3 (combinedScore s1) },
               { start := s2.start, «end» := s2.«end», text := s2.text,
                 score := round3 (combinedScore s2) }] =
              [{ start := s1.start, «end» := s1.«end», text := s1.text,
                 score := round3 (combinedScore s1) },
               { start := s2.start, «end» := s2.«end», text := s2.text,
                 score := round3 (combinedScore s2) }] from sortBy_pair _ _ hord, hm]
        simp [sortBy, insertBy, List.length_take, length_insertBy, MAX_CLIPS_PER_ASSET]
    · intro hgap
      have hm := mergeWindows_pair_far
        { start := s1.start, «end» := s1.«end», text := s1.text,
          score := round3 (combinedScore s1) }
        { start := s2.start, «end» := s2.«end», text := s2.text,
          score := round3 (combinedScore s2) } hgap
      constructor
      · rw [hsorted, hc, hm]
      · simp only [build_clip_windows, hc]
        rw [show sortBy (fun a b : Candidate => decide (a.start ≤ b.start))
              [{ start := s1.start, «end» := s1.«end», text := s1.text,
                 score := round3 (combinedScore s1) },
               { start := s2.start, «end» := s2.«end», text := s2.text,
                 score := round3 (combinedScore s2) }] =
              [{ start := s1.start, «end» := s1.«end», text := s1.text,
                 score := round3 (combinedScore s1) },
               { start := s2.start, «end» := s2.«end», text := s2.text,
                 score := round3 (combinedScore s2) }] from sortBy_pair _ _ hord, hm]
        simp only [List.map_cons, List.map_nil, sortBy, insertBy]
        split_ifs <;> simp [List.length_take, MAX_CLIPS_PER_ASSET]
  · rw [scoreSegment_segA1, scoreSegment_segA2]
    have hr4 : round3 ((2 : ℚ) / 5) = 2 / 5 := by norm_num [round3, rhe, Int.fract]
    have hr34 : round3 ((17 : ℚ) / 50) = 17 / 50 := by norm_num [round3, rhe, Int.fract]
    have h0 : round2 (0 : ℚ) = 0 := round2_zero
    have h10 : round2 (10 : ℚ) = 10 := round2_eq_self 1000 (by norm_num)
    norm_num [build_clip_windows, candidatesOf, combinedScore, segA1s, segA2s, mergeWindows,
      mergeLoop, toClipSpec, ClipSpec.make, sortBy, insertBy, hr4, hr34, h0, h10,
      sup_eq_max, max_def, MIN_CLIP_DURATION, MAX_CLIP_DURATION, MERGE_GAP, MAX_CLIPS_PER_ASSET]

/-- Witness for C5 at the Scenario A inputs (gap 1 ≤ MERGE_GAP). -/
theorem c5_merge_correctness_witness :
    mergeWindows (sortBy (fun a b => decide (a.start ≤ b.start))
        (candidatesOf [segA1s, segA2s] 0.3)) =
      [{ start := segA1s.start, «end» := segA2s.«end»,
         score := max (round3 (combinedScore segA1s)) (round3 (combinedScore segA2s)),
         texts := [segA1s.text, segA2s.text] }] ∧
    (build_clip_windows [segA1s, segA2s] 0.3).length = 1 :=
  (c5_merge_correctness.1 segA1s segA2s 0.3
      (by norm_num [combinedScore, segA1s])
      (by norm_num [combinedScore, segA2s])
      (by norm_num [segA1s, segA2s])).1
    (by norm_num [segA1s, segA2s, MERGE_GAP])

/-- Branch lemma: a terminal asset short-circuits advance. -/
theorem advance_pipeline_terminal (w : World) (e : ℕ → World → StepOutcome)
    (h5 : 5 ≤ w.asset.pipeline_step)
    (hc : w.asset.pipeline_step_status = StepStatus.COMPLETED) :
    advance_pipeline w e =
      (w, .ok { asset_id := w.asset.id, step_advanced_to := 5, step_name := "Caption & Post",
                status := .COMPLETED, message := "Pipeline already complete" }) := by
  unfold advance_pipeline
  rw [if_pos ⟨h5, hc⟩]

/-- Branch lemma: when the next step passes 5 the asset is marked READY. -/
theorem advance_pipeline_past (w : World) (e : ℕ → World → StepOutcome)
    (hterm : ¬ (5 ≤ w.asset.pipeline_step ∧
      w.asset.pipeline_step_status = StepStatus.COMPLETED))
    (h5 : 5 < next_step_of w.asset.pipeline_step w.asset.pipeline_step_status) :
    advance_pipeline w e =
      ({ w with asset := { w.asset with status := .READY } },
       .ok { asset_id := w.asset.id, step_advanced_to := 5, step_name := "Caption & Post",
             status := .COMPLETED, message := "All steps complete" }) := by
  unfold advance_pipeline
  rw [if_neg hterm]
  dsimp only
  rw [if_pos h5]

/-- Branch lemma: a successfully executed step is persisted with the status
the executor returned. -/
theorem advance_pipeline_ok (w : World) (e : ℕ → World → StepOutcome)
    (hterm : ¬ (5 ≤ w.asset.pipeline_step ∧
      w.asset.pipeline_step_status = StepStatus.COMPLETED))
    (hle : ¬ 5 < next_step_of w.asset.pipeline_step w.asset.pipeline_step_status)
    {w2 : World} {st : StepStatus} {msg : Option String}
    (hE : e (next_step_of w.asset.pipeline_step w.asset.pipeline_step_status)
        (running_world w (next_step_of w.asset.pipeline_step w.asset.pipeline_step_status)) =
      .ok w2 st msg) :
    advance_pipeline w e =
      ({ asset :=
           { w2.asset with
               pipeline_step := next_step_of w.asset.pipeline_step w.asset.pipeline_step_status,
               pipeline_step_status := st,
               status :=
                 if next_step_of w.asset.pipeline_step w.asset.pipeline_step_status = 5 ∧
                     st = StepStatus.COMPLETED then ContentStatus.READY
                 else w2.asset.status },
         clips := w2.clips },
       .ok { asset_id := w.asset.id,
             step_advanced_to := next_step_of w.asset.pipeline_step w.asset.pipeline_step_status,
             step_name := (PIPELINE_STEP_NAMES (next_step_of w.asset.pipeline_step
               w.asset.pipeline_step_status)).getD "Unknown",
             status := st,
             message := msg.getD ("Step " ++ toString (next_step_of w.asset.pipeline_step
               w.asset.pipeline_step_status) ++ " " ++ st.lower) }) := by
  unfold advance_pipeline
  rw [if_neg hterm]
  dsimp only
  rw [if_neg hle, hE]

/-- Branch lemma: a step that raises is persisted as FAILED/FAILED with the
message, and the endpoint answers HTTP 500. -/
theorem advance_pipeline_exn (w : World) (e : ℕ → World → StepOutcome)
    (hterm : ¬ (5 ≤ w.asset.pipeline_step ∧
      w.asset.pipeline_step_status = StepStatus.COMPLETED))
    (hle : ¬ 5 < next_step_of w.asset.pipeline_step w.asset.pipeline_step_status)
    {w2 : World} {m : String}
    (hE : e (next_step_of w.asset.pipeline_step w.asset.pipeline_step_status)
        (running_world w (next_step_of w.asset.pipeline_step w.asset.pipeline_step_status)) =
      .exn w2 m) :
    advance_pipeline w e =
      ({ asset :=
           { w2.asset with
               pipeline_step := next_step_of w.asset.pipeline_step w.asset.pipeline_step_status,
               pipeline_step_status := .FAILED,
               status := ContentStatus.FAILED,
               error_message := some m },
         clips := w2.clips },
       .httpError 500 m) := by
  unfold advance_pipeline
  rw [if_neg hterm]
  dsimp only
  rw [if_neg hle, hE]

/-- C3: when the pipeline step is 5 (or more) and its status is COMPLETED,
advance is a no-op: it returns the fixed terminal response without touching
the persisted state — for any executor — and a second call returns exactly
the same thing. -/
theorem c3_terminal_idempotent (w : World) (e1 e2 : ℕ → World → StepOutcome)
    (h5 : 5 ≤ w.asset.pipeline_step)
    (hc : w.asset.pipeline_step_status = StepStatus.COMPLETED) :
    advance_pipeline w e1 =
      (w, .ok { asset_id := w.asset.id, step_advanced_to := 5, step_name := "Caption & Post",
                status := .COMPLETED, message := "Pipeline already complete" }) ∧
    advance_pipeline (advance_pipeline w e1).1 e2 = advance_pipeline w e1 := by
  have h1 : advance_pipeline w e1 =
      (w, .ok { asset_id := w.asset.id, step_advanced_to := 5, step_name := "Caption & Post",
                status := .COMPLETED, message := "Pipeline already complete" }) := by
    unfold advance_pipeline
    rw [if_pos ⟨h5, hc⟩]
  refine ⟨h1, ?_⟩
  rw [h1]
  unfold advance_pipeline
  rw [if_pos ⟨h5, hc⟩]

/-- Witness for C3 at a concrete terminal asset. -/
theorem c3_terminal_idempotent_witness :
    advance_pipeline worldT execNoop =
      (worldT, .ok { asset_id := worldT.asset.id, step_advanced_to := 5,
                     step_name := "Caption & Post", status := .COMPLETED,
                     message := "Pipeline already complete" }) ∧
    advance_pipeline (advance_pipeline worldT execNoop).1 execNoop =
      advance_pipeline worldT execNoop :=
  c3_terminal_idempotent worldT execNoop execNoop (by decide) (by decide)

/-! C4: the persisted step number never decreases. -/
theorem le_next_step_of (current : ℕ) (st : StepStatus) : current ≤ next_step_of current st := by
  unfold next_step_of
  split_ifs <;> omega

/-- One advance call never decreases the persisted pipeline step, whatever the
executor does (success, POLLING, SKIPPED or an exception). -/
theorem advance_step_le (w : World) (e : ℕ → World → StepOutcome) :
    w.asset.pipeline_step ≤ (advance_pipeline w e).1.asset.pipeline_step := by
  unfold advance_pipeline
  by_cases h1 : 5 ≤ w.asset.pipeline_step ∧ w.asset.pipeline_step_status = StepStatus.COMPLETED
  · rw [if_pos h1]
  · rw [if_neg h1]
    dsimp only
    by_cases h2 : 5 < next_step_of w.asset.pipeline_step w.asset.pipeline_step_status
    · rw [if_pos h2]
    · rw [if_neg h2]
      split <;> exact le_next_step_of _ _

/-- C4: across any sequence of advance calls on an asset (each call's executor
arbitrary, exceptions included), the persisted pipeline step numbers along the
trace are monotonically non-decreasing. -/
theorem c4_step_monotonic (w : World) (execs : List (ℕ → World → StepOutcome)) :
    (execs.scanl (fun s e => (advance_pipeline s e).1) w).Chain'
      (fun a b => a.asset.pipeline_step ≤ b.asset.pipeline_step) := by
  induction execs generalizing w with
  | nil => simp
  | cons e es ih =>
    rw [List.scanl_cons, List.singleton_append, List.chain'_cons']
    constructor
    · intro b hb
      have hhead : (es.scanl (fun s e => (advance_pipeline s e).1)
          ((advance_pipeline w e).1)).head? = some ((advance_pipeline w e).1) := by
        cases es <;> rfl
      rw [hhead, Option.mem_some_iff] at hb
      rw [← hb]
      exact advance_step_le w e
    · exact ih _

/-! C8: POLLING re-entry. -/
theorem getKey_setKey (k : String) (v : StageRec) (l : List (String × StageRec)) :
    getKey k (setKey k v l) = some v := by
  induction l with
  | nil => simp [setKey, getKey]
  | cons p rest ih =>
    rcases p with ⟨k', v'⟩
    by_cases h : k' = k
    · simp [setKey, getKey, h]
    · simp [setKey, getKey, h, ih]

/-- With a stored project id, `_step_clip` goes straight to polling. -/
theorem step_clip_project (key : String) (cr : Except String String) (cds : List VClip)
    (w : World) (pid : String) (hv : w.asset.vizard_project_id = some pid) :
    step_clip key cr cds w = step_clip_poll pid cds w := by
  unfold step_clip
  rw [hv]

/-- Running the clip step on the mid-call RUNNING commit with an empty vendor
list: the outcome is POLLING, and the committed state keeps the step, the
project id and the clip table while recording the POLLING stage record. -/
theorem step_clip_running_empty (key : String) (cr : Except String String)
    (w : World) (ns : ℕ) (pid : String) (hv : w.asset.vizard_project_id = some pid) :
    ∃ w2 : World,
      step_clip key cr [] (running_world w ns) =
        .ok w2 .POLLING (some "Vizard is processing. Check back later.") ∧
      w2.asset.vizard_project_id = some pid ∧
      w2.clips = w.clips ∧
      getKey "step_4_clip" w2.asset.pipeline_data = some (pollingRec pid) := by
  refine ⟨_, (step_clip_project key cr [] (running_world w ns) pid hv).trans rfl, ?_, ?_, ?_⟩
  · exact hv
  · rfl
  · exact getKey_setKey _ _ _

/-- Running the clip step on the RUNNING commit with a non-empty vendor list
always yields COMPLETED. -/
theorem step_clip_running_nonempty (key : String) (cr : Except String String)
    (v : VClip) (rest : List VClip) (w : World) (ns : ℕ) (pid : String)
    (hv : w.asset.vizard_project_id = some pid) :
    ∃ w2 : World,
      step_clip key cr (v :: rest) (running_world w ns) = .ok w2 .COMPLETED none :=
  ⟨_, (step_clip_project key cr (v :: rest) (running_world w ns) pid hv).trans rfl⟩

/-- One advance of a step-4 POLLING asset against an empty vendor list:
the step stays 4, the status is POLLING again, the step_4_clip record says
POLLING, and the project id survives. -/
theorem advance_poll_empty (w : World) (pid key : String) (cr : Except String String)
    (h4 : w.asset.pipeline_step = 4) (hp : w.asset.pipeline_step_status = StepStatus.POLLING)
    (hv : w.asset.vizard_project_id = some pid) :
    (advance_pipeline w (fun _ w' => step_clip key cr [] w')).1.asset.pipeline_step = 4 ∧
    (advance_pipeline w (fun _ w' =>
      step_clip key cr [] w')).1.asset.pipeline_step_status = StepStatus.POLLING ∧
    (advance_pipeline w (fun _ w' =>
      step_clip key cr [] w')).1.asset.vizard_project_id = some pid ∧
    getKey "step_4_clip"
        (advance_pipeline w (fun _ w' => step_clip key cr [] w')).1.asset.pipeline_data =
      some (pollingRec pid) ∧
    (advance_pipeline w (fun _ w' => step_clip key cr [] w')).1.clips = w.clips := by
  have hterm : ¬ (5 ≤ w.asset.pipeline_step ∧
      w.asset.pipeline_step_status = StepStatus.COMPLETED) := by
    rw [hp]; rintro ⟨-, h⟩; exact StepStatus.noConfusion h
  have hns : next_step_of w.asset.pipeline_step w.asset.pipeline_step_status = 4 := by
    rw [h4, hp]; rfl
  have hle : ¬ 5 < next_step_of w.asset.pipeline_step w.asset.pipeline_step_status := by
    rw [hns]; norm_num
  obtain ⟨w2, hE, hvp, hcl, hgk⟩ := step_clip_running_empty key cr w
    (next_step_of w.asset.pipeline_step w.asset.pipeline_step_status) pid hv
  have heq := advance_pipeline_ok w (fun _ w' => step_clip key cr [] w') hterm hle hE
  rw [heq]
  exact ⟨hns, rfl, hvp, hgk, hcl⟩

/-- C8: an asset whose step status is POLLING is re-run at the same step —
the persisted step never moves, for any executor outcome; against the modelled
clip stage, an empty vendor list persists POLLING again (and does so for any
number of repeated advances), while a non-empty list ends the polling loop
with COMPLETED. -/
theorem c8_polling_reentry :
    (∀ (w : World) (e : ℕ → World → StepOutcome),
      w.asset.pipeline_step_status = StepStatus.POLLING →
      (advance_pipeline w e).1.asset.pipeline_step = w.asset.pipeline_step) ∧
    (∀ (w : World) (pid key : String) (cr : Except String String) (n : ℕ),
      w.asset.pipeline_step = 4 → w.asset.pipeline_step_status = StepStatus.POLLING →
      w.asset.vizard_project_id = some pid →
      ((fun w' => (advance_pipeline w' (fun _ x =>
        step_clip key cr [] x)).1)^[n+1] w).asset.pipeline_step = 4 ∧
      ((fun w' => (advance_pipeline w' (fun _ x =>
        step_clip key cr [] x)).1)^[n+1] w).asset.pipeline_step_status = StepStatus.POLLING ∧
      getKey "step_4_clip" ((fun w' => (advance_pipeline w' (fun _ x =>
        step_clip key cr [] x)).1)^[n+1] w).asset.pipeline_data = some (pollingRec pid)) ∧
    (∀ (w : World) (pid key : String) (cr : Except String String) (cds : List VClip),
      w.asset.pipeline_step = 4 → w.asset.pipeline_step_status = StepStatus.POLLING →
      w.asset.vizard_project_id = some pid → cds ≠ [] →
      (advance_pipeline w (fun _ w' =>
        step_clip key cr cds w')).1.asset.pipeline_step_status = StepStatus.COMPLETED) := by
  refine ⟨?_, ?_, ?_⟩
  · intro w e hp
    have hterm : ¬ (5 ≤ w.asset.pipeline_step ∧
        w.asset.pipeline_step_status = StepStatus.COMPLETED) := by
      rw [hp]; rintro ⟨-, h⟩; exact StepStatus.noConfusion h
    have hns : next_step_of w.asset.pipeline_step w.asset.pipeline_step_status =
        w.asset.pipeline_step := by
      unfold next_step_of
      rw [hp]
      rfl
    unfold advance_pipeline
    rw [if_neg hterm]
    dsimp only
    rw [hns]
    by_cases h2 : 5 < w.asset.pipeline_step
    · rw [if_pos h2]
    · rw [if_neg h2]
      split <;> rfl
  · intro w pid key cr n h4 hp hv
    induction n generalizing w with
    | zero =>
      simp only [Nat.zero_add, Function.iterate_one]
      obtain ⟨a, b, c, d, e⟩ := advance_poll_empty w pid key cr h4 hp hv
      exact ⟨a, b, d⟩
    | succ m ih =>
      have hstep := advance_poll_empty w pid key cr h4 hp hv
      rw [show m + 1 + 1 = (m + 1) + 1 from rfl, Function.iterate_succ_apply]
      exact ih _ hstep.1 hstep.2.1 hstep.2.2.1
  · intro w pid key cr cds h4 hp hv hne
    have hterm : ¬ (5 ≤ w.asset.pipeline_step ∧
        w.asset.pipeline_step_status = StepStatus.COMPLETED) := by
      rw [hp]; rintro ⟨-, h⟩; exact StepStatus.noConfusion h
    have hns : next_step_of w.asset.pipeline_step w.asset.pipeline_step_status = 4 := by
      rw [h4, hp]; rfl
    have hle : ¬ 5 < next_step_of w.asset.pipeline_step w.asset.pipeline_step_status := by
      rw [hns]; norm_num
    obtain ⟨v, rest, rfl⟩ : ∃ v rest, cds = v :: rest := by
      cases cds with
      | nil => exact absurd rfl hne
      | cons v rest => exact ⟨v, rest, rfl⟩
    obtain ⟨w2, hE⟩ := step_clip_running_nonempty key cr v rest w
      (next_step_of w.asset.pipeline_step w.asset.pipeline_step_status) pid hv
    have heq := advance_pipeline_ok w (fun _ w' => step_clip key cr (v :: rest) w') hterm hle hE
    rw [heq]

/-- Witness for C8 at the concrete polling asset. -/
theorem c8_polling_reentry_witness :
    ((advance_pipeline worldPoll (fun _ x =>
        step_clip "k" (Except.ok "proj-1") [] x)).1.asset.pipeline_step =
      worldPoll.asset.pipeline_step) ∧
    (((fun w' => (advance_pipeline w' (fun _ x =>
        step_clip "k" (Except.ok "proj-1") [] x)).1)^[2] worldPoll).asset.pipeline_step = 4 ∧
     ((fun w' => (advance_pipeline w' (fun _ x =>
        step_clip "k" (Except.ok "proj-1") [] x)).1)^[2] worldPoll).asset.pipeline_step_status =
        StepStatus.POLLING ∧
     getKey "step_4_clip" ((fun w' => (advance_pipeline w' (fun _ x =>
        step_clip "k" (Except.ok "proj-1") [] x)).1)^[2] worldPoll).asset.pipeline_data =
        some (pollingRec "proj-1")) ∧
    (advance_pipeline worldPoll (fun _ w' =>
      step_clip "k" (Except.ok "proj-1") [{ videoUrl := none }] w')).1.asset.pipeline_step_status =
        StepStatus.COMPLETED :=
  ⟨c8_polling_reentry.1 worldPoll _ rfl,
   c8_polling_reentry.2.1 worldPoll "proj-1" "k" (Except.ok "proj-1") 1 rfl rfl rfl,
   c8_polling_reentry.2.2 worldPoll "proj-1" "k" (Except.ok "proj-1") [{ videoUrl := none }]
     rfl rfl rfl (List.cons_ne_nil _ _)⟩

/-- With no stored project id and an empty API key, `_step_clip` raises before
any commit (`VizardAgent.create_project` checks the key first). -/
theorem step_clip_missing_key (cr : Except String String) (cds : List VClip) (w : World)
    (hv : w.asset.vizard_project_id = none) :
    step_clip "" cr cds w = .exn w VIZARD_MISSING_KEY_MSG := by
  unfold step_clip
  rw [hv]
  rfl

/-- C7 (amended): executing the clip stage with the vendor API key missing
does not record SKIPPED — the stage raises, and advance persists stage 4 as
FAILED with the error message, marks the asset FAILED overall, and answers
HTTP 500; the pipeline blocks on the missing credential. -/
theorem c7_missing_key_fails (w : World) (cr : Except String String) (cds : List VClip)
    (h3 : w.asset.pipeline_step = 3)
    (hc : w.asset.pipeline_step_status = StepStatus.COMPLETED)
    (hv : w.asset.vizard_project_id = none) :
    (advance_pipeline w (fun _ w' => step_clip "" cr cds w')).1.asset.pipeline_step = 4 ∧
    (advance_pipeline w (fun _ w' =>
      step_clip "" cr cds w')).1.asset.pipeline_step_status = StepStatus.FAILED ∧
    (advance_pipeline w (fun _ w' =>
      step_clip "" cr cds w')).1.asset.pipeline_step_status ≠ StepStatus.SKIPPED ∧
    (advance_pipeline w (fun _ w' =>
      step_clip "" cr cds w')).1.asset.status = ContentStatus.FAILED ∧
    (advance_pipeline w (fun _ w' =>
      step_clip "" cr cds w')).1.asset.error_message = some VIZARD_MISSING_KEY_MSG ∧
    (advance_pipeline w (fun _ w' =>
      step_clip "" cr cds w')).2 = .httpError 500 VIZARD_MISSING_KEY_MSG := by
  have hterm : ¬ (5 ≤ w.asset.pipeline_step ∧
      w.asset.pipeline_step_status = StepStatus.COMPLETED) := by
    rw [h3]; rintro ⟨h, -⟩; omega
  have hns : next_step_of w.asset.pipeline_step w.asset.pipeline_step_status = 4 := by
    rw [h3, hc]; rfl
  have hle : ¬ 5 < next_step_of w.asset.pipeline_step w.asset.pipeline_step_status := by
    rw [hns]; norm_num
  have hE : (fun (_ : ℕ) w' => step_clip "" cr cds w')
      (next_step_of w.asset.pipeline_step w.asset.pipeline_step_status)
      (running_world w (next_step_of w.asset.pipeline_step w.asset.pipeline_step_status)) =
      .exn (running_world w (next_step_of w.asset.pipeline_step w.asset.pipeline_step_status))
        VIZARD_MISSING_KEY_MSG :=
    step_clip_missing_key cr cds _ hv
  have heq := advance_pipeline_exn w (fun _ w' => step_clip "" cr cds w') hterm hle hE
  rw [heq]
  exact ⟨hns, rfl, fun h => StepStatus.noConfusion h, rfl, rfl, rfl⟩

/-- C7 (counterexample to the claim as stated): with the Vizard API key
missing, the clip stage ends FAILED (not SKIPPED) with the explanatory
message, the asset is FAILED overall, and the call surfaces HTTP 500. -/
theorem c7_counterexample :
    (advance_pipeline worldNoViz (fun _ w' =>
      step_clip "" (Except.ok "p") [] w')).1.asset.pipeline_step_status = StepStatus.FAILED ∧
    (advance_pipeline worldNoViz (fun _ w' =>
      step_clip "" (Except.ok "p") [] w')).1.asset.pipeline_step_status ≠ StepStatus.SKIPPED ∧
    (advance_pipeline worldNoViz (fun _ w' =>
      step_clip "" (Except.ok "p") [] w')).1.asset.status = ContentStatus.FAILED ∧
    (advance_pipeline worldNoViz (fun _ w' =>
      step_clip "" (Except.ok "p") [] w')).1.asset.error_message =
      some VIZARD_MISSING_KEY_MSG ∧
    (advance_pipeline worldNoViz (fun _ w' =>
      step_clip "" (Except.ok "p") [] w')).2 = .httpError 500 VIZARD_MISSING_KEY_MSG := by
  refine ⟨?_, ?_, ?_, ?_, ?_⟩ <;> decide

/-- Witness for the amended C7 at the concrete asset. -/
theorem c7_missing_key_fails_witness :
    (advance_pipeline worldNoViz (fun _ w' =>
      step_clip "" (Except.error "boom") [{ videoUrl := none }] w')).1.asset.pipeline_step = 4 ∧
    (advance_pipeline worldNoViz (fun _ w' =>
      step_clip "" (Except.error "boom")
        [{ videoUrl := none }] w')).1.asset.pipeline_step_status = StepStatus.FAILED ∧
    (advance_pipeline worldNoViz (fun _ w' =>
      step_clip "" (Except.error "boom")
        [{ videoUrl := none }] w')).1.asset.pipeline_step_status ≠ StepStatus.SKIPPED ∧
    (advance_pipeline worldNoViz (fun _ w' =>
      step_clip "" (Except.error "boom")
        [{ videoUrl := none }] w')).1.asset.status = ContentStatus.FAILED ∧
    (advance_pipeline worldNoViz (fun _ w' =>
      step_clip "" (Except.error "boom")
        [{ videoUrl := none }] w')).1.asset.error_message = some VIZARD_MISSING_KEY_MSG ∧
    (advance_pipeline worldNoViz (fun _ w' =>
      step_clip "" (Except.error "boom")
        [{ videoUrl := none }] w')).2 = .httpError 500 VIZARD_MISSING_KEY_MSG :=
  c7_missing_key_fails worldNoViz (Except.error "boom") [{ videoUrl := none }] rfl rfl rfl

/-- C6 (amended): within `advance_pipeline` itself, if the executor does not
touch the overall status (true of every modelled stage), a non-READY asset at
a stage ≤ 5 becomes READY only at stage 5 with stage status COMPLETED or
SKIPPED. The lazy-polling asset read breaks the claimed invariant — see the
counterexample. -/
theorem c6_advance_ready_only_terminal (w : World) (e : ℕ → World → StepOutcome)
    (hstep : w.asset.pipeline_step ≤ 5) (hnr : w.asset.status ≠ ContentStatus.READY)
    (hexec : ∀ n w', ((e n w').world).asset.status = w'.asset.status)
    (hr : (advance_pipeline w e).1.asset.status = ContentStatus.READY) :
    (advance_pipeline w e).1.asset.pipeline_step = 5 ∧
    ((advance_pipeline w e).1.asset.pipeline_step_status = StepStatus.COMPLETED ∨
     (advance_pipeline w e).1.asset.pipeline_step_status = StepStatus.SKIPPED) := by
  by_cases hterm : 5 ≤ w.asset.pipeline_step ∧
      w.asset.pipeline_step_status = StepStatus.COMPLETED
  · rw [advance_pipeline_terminal w e hterm.1 hterm.2] at hr
    exact absurd hr hnr
  · by_cases h5 : 5 < next_step_of w.asset.pipeline_step w.asset.pipeline_step_status
    · have heq := advance_pipeline_past w e hterm h5
      rw [heq]
      have h5' := h5
      unfold next_step_of at h5'
      split_ifs at h5' with hcs hpol hfail
      · have hs5 : w.asset.pipeline_step = 5 := by omega
        refine ⟨hs5, ?_⟩
        rcases hcs with h | h
        · exact Or.inl h
        · exact Or.inr h
      · omega
      · omega
      · exact absurd h5' (by omega)
    · cases hE : e (next_step_of w.asset.pipeline_step w.asset.pipeline_step_status)
          (running_world w (next_step_of w.asset.pipeline_step
            w.asset.pipeline_step_status)) with
      | ok w2 st msg =>
        have heq := advance_pipeline_ok w e hterm h5 hE
        rw [heq] at hr ⊢
        by_cases hcond : next_step_of w.asset.pipeline_step w.asset.pipeline_step_status = 5 ∧
            st = StepStatus.COMPLETED
        · exact ⟨hcond.1, Or.inl hcond.2⟩
        · exfalso
          have hr' : w2.asset.status = ContentStatus.READY := by
            have hfield : ((if next_step_of w.asset.pipeline_step
                w.asset.pipeline_step_status = 5 ∧ st = StepStatus.COMPLETED then
                  ContentStatus.READY else w2.asset.status)) = ContentStatus.READY := hr
            rwa [if_neg hcond] at hfield
          have hP : w2.asset.status = ContentStatus.PROCESSING := by
            have hx := hexec (next_step_of w.asset.pipeline_step w.asset.pipeline_step_status)
              (running_world w (next_step_of w.asset.pipeline_step
                w.asset.pipeline_step_status))
            rw [hE] at hx
            exact hx
          rw [hP] at hr'
          exact ContentStatus.noConfusion hr'
      | exn w2 m =>
        have heq := advance_pipeline_exn w e hterm h5 hE
        rw [heq] at hr
        exact absurd hr (by exact fun h => ContentStatus.noConfusion h)

/-- Witness for the amended C6: completing stage 5 flips the asset to READY
with stage 5 COMPLETED. -/
theorem c6_advance_ready_only_terminal_witness :
    (advance_pipeline worldStep4 execNoop).1.asset.pipeline_step = 5 ∧
    ((advance_pipeline worldStep4 execNoop).1.asset.pipeline_step_status =
       StepStatus.COMPLETED ∨
     (advance_pipeline worldStep4 execNoop).1.asset.pipeline_step_status =
       StepStatus.SKIPPED) :=
  c6_advance_ready_only_terminal worldStep4 execNoop (by decide) (by decide)
    (fun _ _ => rfl) (by decide)

/-- C6 (counterexample): a reachable asset sits at stage 4/POLLING while
PROCESSING; the next `get_asset` read, with the vendor now reporting one clip
entry (here one without a videoUrl), sets the overall status to READY even
though the pipeline stage is 4 and stage 5 was never run. -/
theorem c6_counterexample :
    c6Mid.asset.pipeline_step = 4 ∧
    c6Mid.asset.pipeline_step_status = StepStatus.POLLING ∧
    c6Mid.asset.status = ContentStatus.PROCESSING ∧
    get_asset c6Mid [{ videoUrl := none }] = GetAssetResult.ok c6Final ContentStatus.READY ∧
    c6Final.asset.status = ContentStatus.READY ∧
    c6Final.asset.pipeline_step = 4 ∧
    c6Final.asset.pipeline_step < 5 ∧
    c6Final.asset.pipeline_step_status = StepStatus.POLLING := by
  refine ⟨?_, ?_, ?_, ?_, ?_, ?_, ?_, ?_⟩ <;> decide

/-- C2 (counterexample): reading the status of a PROCESSING/RUNNING asset
whose `updated_at` is 200 seconds old changes nothing: `get_pipeline_status`
returns the state untouched and still PROCESSING, and `get_asset` returns the
asset unchanged — neither flips it to FAILED. There is no staleness check in
either read path. -/
theorem c2_counterexample :
    (get_pipeline_status staleWorld).1 = staleWorld ∧
    (get_pipeline_status staleWorld).2.overall_status = ContentStatus.PROCESSING ∧
    get_asset staleWorld [] = GetAssetResult.ok staleWorld ContentStatus.PROCESSING ∧
    staleWorld.asset.updated_at = 0 ∧
    staleWorld.asset.status ≠ ContentStatus.FAILED ∧
    staleWorld.asset.pipeline_step_status = StepStatus.RUNNING := by
  refine ⟨rfl, rfl, by decide, rfl, by decide, rfl⟩

/-- C2 (amended): status reads perform no staleness-based transition at all:
`get_pipeline_status` never mutates the state, and `get_asset` — for every
asset, every `updated_at` age, and every vendor answer — leaves a PROCESSING
asset either PROCESSING or (via lazy polling) READY, never FAILED. -/
theorem c2_no_zombie_detection :
    (∀ w : World, (get_pipeline_status w).1 = w) ∧
    (∀ (a : Asset) (t : ℤ) (clips : List Clip) (cds : List VClip) (w2 : World)
        (st : ContentStatus),
      a.status = ContentStatus.PROCESSING →
      get_asset { asset := { a with updated_at := t }, clips := clips } cds =
        GetAssetResult.ok w2 st →
      w2.asset.status = ContentStatus.PROCESSING ∨
      w2.asset.status = ContentStatus.READY) := by
  refine ⟨fun w => rfl, ?_⟩
  intro a t clips cds w2 st hs hget
  unfold get_asset at hget
  split_ifs at hget with h1 h2 <;>
    first
    | exact GetAssetResult.noConfusion hget
    | (injection hget with hw hst; right; rw [← hw]; done)
    | (injection hget with hw hst; left; rw [← hw]; exact hs)

/-- Witness for the amended C2 at the concrete stale asset. -/
theorem c2_no_zombie_detection_witness :
    staleWorld.asset.status = ContentStatus.PROCESSING ∨
    staleWorld.asset.status = ContentStatus.READY :=
  c2_no_zombie_detection.2 staleAsset 0 [] [] staleWorld ContentStatus.PROCESSING rfl
    (by decide)

/-! C10: the clip stage creates at most 15 deduplicated rows and re-runs are
free of duplicates. -/
theorem clipExists_mono (clips extra : List Clip) (aid : ℕ) (url : String)
    (h : clipExists clips aid url = true) : clipExists (clips ++ extra) aid url = true := by
  unfold clipExists at h ⊢
  rw [List.any_append, h]
  rfl

theorem clipExists_append_new (clips : List Clip) (aid : ℕ) (v : VClip) (u : String) :
    clipExists (clips ++ [vendorClip aid v u]) aid u = true := by
  unfold clipExists
  rw [List.any_append]
  simp [vendorClip]

theorem addVendorClips_cons_none (aid : ℕ) (v : VClip) (rest : List VClip)
    (clips : List Clip) (hv : v.videoUrl = none) :
    addVendorClips aid (v :: rest) clips = addVendorClips aid rest clips := by
  rw [addVendorClips, hv]

theorem addVendorClips_cons_dup (aid : ℕ) (v : VClip) (rest : List VClip)
    (clips : List Clip) (u : String) (hv : v.videoUrl = some u)
    (hex : clipExists clips aid u = true) :
    addVendorClips aid (v :: rest) clips = addVendorClips aid rest clips := by
  rw [addVendorClips, hv]
  dsimp only
  rw [if_pos hex]

theorem addVendorClips_cons_new (aid : ℕ) (v : VClip) (rest : List VClip)
    (clips : List Clip) (u : String) (hv : v.videoUrl = some u)
    (hex : clipExists clips aid u = false) :
    addVendorClips aid (v :: rest) clips =
      ((addVendorClips aid rest (clips ++ [vendorClip aid v u])).1,
       (addVendorClips aid rest (clips ++ [vendorClip aid v u])).2 + 1) := by
  rw [addVendorClips, hv]
  dsimp only
  rw [if_neg (by rw [hex]; exact Bool.false_ne_true)]

/-- Full specification of the clip-creation loop: the run appends `created`
new rows, at most one per entry; each row belongs to the asset, is READY, and
carries a fresh url from the first 15 entries; no two appended rows share a
url; and afterwards every url of the first 15 entries is present. -/
theorem addVendorClips_spec (aid : ℕ) (entries : List VClip) (clips : List Clip) :
    ∃ added : List Clip,
      (addVendorClips aid entries clips).1 = clips ++ added ∧
      added.length = (addVendorClips aid entries clips).2 ∧
      (addVendorClips aid entries clips).2 ≤ entries.length ∧
      (∀ c ∈ added, c.asset_id = aid ∧ c.status = ClipStatus.READY ∧
        ∃ u : String, c.file_path = some u ∧ (∃ v ∈ entries, v.videoUrl = some u) ∧
          clipExists clips aid u = false) ∧
      (added.map Clip.file_path).Nodup ∧
      (∀ v ∈ entries, ∀ u : String, v.videoUrl = some u →
        clipExists (addVendorClips aid entries clips).1 aid u = true) := by
  induction entries generalizing clips with
  | nil =>
    refine ⟨[], by simp [addVendorClips], by simp [addVendorClips], by simp [addVendorClips],
      by simp, by simp, by simp⟩
  | cons v rest ih =>
    cases hv : v.videoUrl with
    | none =>
      obtain ⟨added, h1, h2, h3, h4, h5, h6⟩ := ih clips
      rw [addVendorClips_cons_none aid v rest clips hv]
      refine ⟨added, h1, h2, le_trans h3 (by simp), ?_, h5, ?_⟩
      · intro c hc
        obtain ⟨ha, hs, u, hu, ⟨v', hv', hvu⟩, hex⟩ := h4 c hc
        exact ⟨ha, hs, u, hu, ⟨v', List.mem_cons_of_mem _ hv', hvu⟩, hex⟩
      · intro v' hv' u hu
        rcases List.mem_cons.mp hv' with rfl | hmem
        · rw [hv] at hu; exact Option.noConfusion hu
        · exact h6 v' hmem u hu
    | some u =>
      cases hex : clipExists clips aid u with
      | true =>
        obtain ⟨added, h1, h2, h3, h4, h5, h6⟩ := ih clips
        rw [addVendorClips_cons_dup aid v rest clips u hv hex]
        refine ⟨added, h1, h2, le_trans h3 (by simp), ?_, h5, ?_⟩
        · intro c hc
          obtain ⟨ha, hs, u', hu, ⟨v', hv', hvu⟩, hexc⟩ := h4 c hc
          exact ⟨ha, hs, u', hu, ⟨v', List.mem_cons_of_mem _ hv', hvu⟩, hexc⟩
        · intro v' hv' u' hu
          rcases List.mem_cons.mp hv' with rfl | hmem
          · rw [hv] at hu
            injection hu with hu'
            subst hu'
            rw [h1]
            exact clipExists_mono _ _ _ _ hex
          · exact h6 v' hmem u' hu
      | false =>
        obtain ⟨added, h1, h2, h3, h4, h5, h6⟩ := ih (clips ++ [vendorClip aid v u])
        rw [addVendorClips_cons_new aid v rest clips u hv hex]
        refine ⟨vendorClip aid v u :: added, ?_, ?_, ?_, ?_, ?_, ?_⟩
        · dsimp only
          rw [h1, List.append_assoc, List.singleton_append]
        · dsimp only
          rw [List.length_cons, h2]
        · dsimp only
          rw [List.length_cons]
          omega
        · intro c hc
          rcases List.mem_cons.mp hc with rfl | hmem
          · exact ⟨rfl, rfl, u, rfl, ⟨v, List.mem_cons_self _ _, hv⟩, hex⟩
          · obtain ⟨ha, hs, u', hu, ⟨v', hv', hvu⟩, hexc⟩ := h4 c hmem
            refine ⟨ha, hs, u', hu, ⟨v', List.mem_cons_of_mem _ hv', hvu⟩, ?_⟩
            cases hq : clipExists clips aid u' with
            | false => rfl
            | true =>
              rw [clipExists_mono _ _ _ _ hq] at hexc
              exact Bool.noConfusion hexc
        · rw [List.map_cons, List.nodup_cons]
          refine ⟨?_, h5⟩
          intro hmem
          obtain ⟨c', hc', hfp⟩ := List.mem_map.mp hmem
          obtain ⟨ha, hs, u', hu, hv', hexc⟩ := h4 c' hc'
          rw [hu] at hfp
          have hfp' : (vendorClip aid v u).file_path = some u' := hfp.symm
          have huu : u' = u := by
            have : some u = some u' := by
              rw [show (vendorClip aid v u).file_path = some u from rfl] at hfp'
              exact hfp'
            injection this with h
            exact h.symm
          rw [huu] at hexc
          rw [clipExists_append_new clips aid v u] at hexc
          exact Bool.noConfusion hexc
        · intro v' hv' u' hu
          rcases List.mem_cons.mp hv' with rfl | hmem
          · rw [hv] at hu
            injection hu with hu'
            subst hu'
            rw [h1]
            exact clipExists_mono _ _ _ _ (clipExists_append_new clips aid v' u)
          · exact h6 v' hmem u' hu

/-- When every url of the processed entries is already present, the loop adds
nothing and reports 0 created. -/
theorem addVendorClips_no_new (aid : ℕ) (entries : List VClip) (clips : List Clip)
    (h : ∀ v ∈ entries, ∀ u : String, v.videoUrl = some u → clipExists clips aid u = true) :
    addVendorClips aid entries clips = (clips, 0) := by
  induction entries with
  | nil => rfl
  | cons v rest ih =>
    cases hv : v.videoUrl with
    | none =>
      rw [addVendorClips_cons_none aid v rest clips hv]
      exact ih fun v' hv' => h v' (List.mem_cons_of_mem _ hv')
    | some u =>
      rw [addVendorClips_cons_dup aid v rest clips u hv
        (h v (List.mem_cons_self _ _) u hv)]
      exact ih fun v' hv' => h v' (List.mem_cons_of_mem _ hv')

/-- When every url of the entries is already present, the lazy-polling loop
of `get_asset` runs to completion (no NameError is reached). -/
theorem lazyPollOk_all (aid : ℕ) (clips : List Clip) (entries : List VClip)
    (h : ∀ v ∈ entries, ∀ u : String, v.videoUrl = some u → clipExists clips aid u = true) :
    lazyPollOk aid clips entries = true := by
  induction entries with
  | nil => rfl
  | cons v rest ih =>
    unfold lazyPollOk
    cases hv : v.videoUrl with
    | none => exact ih fun v' hv' => h v' (List.mem_cons_of_mem _ hv')
    | some u =>
      dsimp only
      rw [if_pos (h v (List.mem_cons_self _ _) u hv)]
      exact ih fun v' hv' => h v' (List.mem_cons_of_mem _ hv')

/-- Re-running the clip stage when every url of the first 15 entries is
already stored: the stage still completes and appends nothing. -/
theorem step_clip_rerun_no_new (key2 : String) (cr2 : Except String String)
    (v0 : VClip) (rest0 : List VClip) (wx : World) (pid : String)
    (hpidx : wx.asset.vizard_project_id = some pid)
    (hall : ∀ v ∈ (v0 :: rest0).take 15, ∀ u : String, v.videoUrl = some u →
      clipExists wx.clips wx.asset.id u = true) :
    ∃ w'' : World, step_clip key2 cr2 (v0 :: rest0) wx = .ok w'' .COMPLETED none ∧
      w''.clips = wx.clips := by
  refine ⟨_, (step_clip_project key2 cr2 (v0 :: rest0) wx pid hpidx).trans rfl, ?_⟩
  show (addVendorClips wx.asset.id ((v0 :: rest0).take 15) wx.clips).1 = wx.clips
  rw [addVendorClips_no_new _ _ _ hall]

/-- The lazy-polling read never adds rows, and when every url of the first 15
entries is already stored it cannot reach the NameError branch either. -/
theorem get_asset_no_new (a' : Asset) (clips : List Clip) (cds : List VClip)
    (hlazy : lazyPollOk a'.id clips (cds.take 15) = true) :
    ∃ (w2 : World) (st : ContentStatus),
      get_asset { asset := a', clips := clips } cds = GetAssetResult.ok w2 st ∧
      w2.clips = clips := by
  unfold get_asset
  dsimp only
  split_ifs with h1
  · exact ⟨_, _, rfl, rfl⟩
  · exact ⟨_, _, rfl, rfl⟩

/-- C10: with a stored vendor project id and a non-empty vendor list, one run
of the clip stage succeeds (COMPLETED), appends at most 15 clip rows — one
per entry that carries a videoUrl not already stored, all marked READY for
this asset, with pairwise-distinct urls — and re-running the stage, or the
lazy-polling asset read, with the same vendor list afterwards creates no
additional rows (and the read reaches no NameError). -/
theorem c10_clip_stage_dedup (key key2 : String) (cr cr2 : Except String String)
    (cds : List VClip) (w : World) (pid : String)
    (hne : cds ≠ []) (hpid : w.asset.vizard_project_id = some pid) :
    ∃ (w' : World) (added : List Clip),
      step_clip key cr cds w = .ok w' .COMPLETED none ∧
      w'.asset.vizard_project_id = some pid ∧
      w'.clips = w.clips ++ added ∧
      added.length ≤ 15 ∧
      (∀ c ∈ added, c.asset_id = w.asset.id ∧ c.status = ClipStatus.READY ∧
        ∃ u : String, c.file_path = some u ∧ ∃ v ∈ cds.take 15, v.videoUrl = some u) ∧
      (added.map Clip.file_path).Nodup ∧
      (∀ c ∈ added, ∀ u : String, c.file_path = some u →
        clipExists w.clips w.asset.id u = false) ∧
      (∃ w'' : World, step_clip key2 cr2 cds w' = .ok w'' .COMPLETED none ∧
        w''.clips = w'.clips) ∧
      (∀ a' : Asset, a'.id = w.asset.id →
        ∃ (w2 : World) (st : ContentStatus),
          get_asset { asset := a', clips := w'.clips } cds = GetAssetResult.ok w2 st ∧
          w2.clips = w'.clips) := by
  obtain ⟨v0, rest0, rfl⟩ : ∃ v0 rest0, cds = v0 :: rest0 := by
    cases cds with
    | nil => exact absurd rfl hne
    | cons v0 rest0 => exact ⟨v0, rest0, rfl⟩
  obtain ⟨added, h1, h2, h3, h4, h5, h6⟩ :=
    addVendorClips_spec w.asset.id ((v0 :: rest0).take 15) w.clips
  refine ⟨_, added, (step_clip_project key cr (v0 :: rest0) w pid hpid).trans rfl,
    hpid, h1, ?_, ?_, h5, ?_, ?_, ?_⟩
  · rw [h2]
    exact le_trans h3 (by simp [List.length_take])
  · intro c hc
    obtain ⟨ha, hs, u, hu, hv, hex⟩ := h4 c hc
    exact ⟨ha, hs, u, hu, hv⟩
  · intro c hc u hu
    obtain ⟨ha, hs, u', hu', hv, hex⟩ := h4 c hc
    rw [hu] at hu'
    injection hu' with huu
    rw [huu]
    exact hex
  · exact step_clip_rerun_no_new key2 cr2 v0 rest0 _ pid hpid h6
  · intro a' hid
    refine get_asset_no_new a' _ (v0 :: rest0) ?_
    rw [hid]
    exact lazyPollOk_all _ _ _ h6

/-- Witness for C10 at a concrete polling asset and a one-entry vendor list. -/
theorem c10_clip_stage_dedup_witness :
    ∃ (w' : World) (added : List Clip),
      step_clip "k" (Except.ok "proj-1") [{ videoUrl := some "https://v/1.mp4" }] worldPoll =
        .ok w' .COMPLETED none ∧
      w'.asset.vizard_project_id = some "proj-1" ∧
      w'.clips = worldPoll.clips ++ added ∧
      added.length ≤ 15 ∧
      (∀ c ∈ added, c.asset_id = worldPoll.asset.id ∧ c.status = ClipStatus.READY ∧
        ∃ u : String, c.file_path = some u ∧
          ∃ v ∈ ([{ videoUrl := some "https://v/1.mp4" }] : List VClip).take 15,
            v.videoUrl = some u) ∧
      (added.map Clip.file_path).Nodup ∧
      (∀ c ∈ added, ∀ u : String, c.file_path = some u →
        clipExists worldPoll.clips worldPoll.asset.id u = false) ∧
      (∃ w'' : World,
        step_clip "k2" (Except.error "e") [{ videoUrl := some "https://v/1.mp4" }] w' =
          .ok w'' .COMPLETED none ∧ w''.clips = w'.clips) ∧
      (∀ a' : Asset, a'.id = worldPoll.asset.id →
        ∃ (w2 : World) (st : ContentStatus),
          get_asset { asset := a', clips := w'.clips }
            [{ videoUrl := some "https://v/1.mp4" }] = GetAssetResult.ok w2 st ∧
          w2.clips = w'.clips) :=
  c10_clip_stage_dedup "k" "k2" (Except.ok "proj-1") (Except.error "e")
    [{ videoUrl := some "https://v/1.mp4" }] worldPoll "proj-1"
    (List.cons_ne_nil _ _) rfl

end BiruBhai
